import Mathlib

/-!
Verification of the azure2aws Azure AD authentication flow interpreter.

This development gives a shallow embedding of the authentication state
machine of `internal/provider/azuread` (the `authenticate` loop, its page
classifier, the per-page state handlers, the MFA begin/end sub-protocol
driver, and the pure HTML content extractors), together with the
`Authenticate` entry-point guard of `client.go`, and proves properties of
the flow against that embedding.

Modelling conventions:
* Go strings are Lean `String`s; `strings.Contains` / `strings.HasPrefix`
  are re-implemented below over character lists so that they evaluate by
  kernel reduction.
* The outputs of the two external parsers used by the code — goquery's
  HTML document parse and the `$Config` embedded-JSON parse performed by
  `regexp` + `encoding/json` — are carried as structured data on each
  response snapshot (`Body.doc`, `Body.config`).  The extractor functions
  (`isHiddenForm`, `getSAMLAssertion`, `parseFormData`) are translated
  from the goquery queries in the source and operate on that document
  model.
* Network exchanges are mediated by an oracle (`Net`); every request the
  code issues is recorded as a `TraceEvent`, one constructor per call
  site in the source.
* The unbounded `for` loop of `authenticate` is modelled with explicit
  fuel; `none` means the loop has not terminated within the given fuel.
-/

namespace Azure2AWS

/-! ## String helpers (model of Go `strings.Contains` and `strings.HasPrefix`) -/

/-- Model of Go byte-wise string matching: does `p` occur as a leading
segment of `s`?  Defined over character lists so that it reduces in the
kernel. -/
def charsLead : List Char → List Char → Bool
  | _, [] => true
  | [], _ :: _ => false
  | c :: cs, p :: ps => c == p && charsLead cs ps

/-- Does `pat` occur contiguously inside `s`? -/
def charsContain (s pat : List Char) : Bool :=
  match s with
  | [] => charsLead [] pat
  | _ :: cs => charsLead s pat || charsContain cs pat

/-- Model of Go `strings.Contains`. -/
def strContains (s pat : String) : Bool := charsContain s.data pat.data

/-- Model of Go `strings.HasPrefix`. -/
def strStartsWith (s pat : String) : Bool := charsLead s.data pat.data

/-! ## Data model

Translated from `internal/provider/provider.go` and
`internal/provider/azuread/types.go`. -/

/-- `provider.LoginCredentials`: immutable caller-supplied credentials. -/
structure LoginCredentials where
  username : String
  password : String
  mfaToken : String
deriving DecidableEq

/-- `azuread.UserProof`: one advertised MFA method. -/
structure UserProof where
  authMethodID : String
  data : String
  display : String
  isDefault : Bool
deriving DecidableEq

/-- `azuread.ConvergedResponse`: the `$Config` session context embedded in
an HTML page.  `oPerAuthPollingInterval` is `map[string]float64` in the
source; the advertised intervals are whole seconds, modelled as an
association list over `Nat`. -/
structure ConvergedResponse where
  urlGetCredentialType : String
  arrUserProofs : List UserProof
  urlSkipMfaRegistration : String
  oPerAuthPollingInterval : List (String × Nat)
  urlBeginAuth : String
  urlEndAuth : String
  urlPost : String
  sErrorCode : String
  sErrTxt : String
  sPOSTUsername : String
  sFT : String
  sFTName : String
  sCtx : String
  hpgact : Int
  hpgid : Int
  pgid : String
  apiCanary : String
  canary : String
  correlationID : String
  sessionID : String
deriving DecidableEq

/-- `azuread.GetCredentialTypeRequest`: body of the credential-type query. -/
structure GetCredentialTypeRequest where
  username : String
  isOtherIdpSupported : Bool
  checkPhones : Bool
  isRemoteNGCSupported : Bool
  isCookieBannerShown : Bool
  isFidoSupported : Bool
  originalRequest : String
  country : String
  forceotclogin : Bool
  isExternalFederationDisallowed : Bool
  isRemoteConnectSupported : Bool
  federationFlags : Int
  isSignup : Bool
  flowToken : String
  isAccessPassSupported : Bool
deriving DecidableEq

/-- The nested `Credentials` object of `GetCredentialTypeResponse`.  The
interface-typed parameter blobs are irrelevant to control flow and are not
modelled. -/
structure CredentialsInfo where
  prefCredential : Int
  hasPassword : Bool
  federationRedirectURL : String
deriving DecidableEq

/-- `azuread.GetCredentialTypeResponse`. -/
structure GetCredentialTypeResponse where
  username : String
  display : String
  ifExistsResult : Int
  isUnmanaged : Bool
  throttleStatus : Int
  credentials : CredentialsInfo
  flowToken : String
  isSignupDisallowed : Bool
  apiCanary : String
deriving DecidableEq

/-- `azuread.MFARequest`: body of a BeginAuth / EndAuth call. -/
structure MFARequest where
  authMethodID : String
  method : String
  ctx : String
  flowToken : String
  sessionID : String
  additionalAuthData : String
deriving DecidableEq

/-- `azuread.MFAResponse`.  `Message` is `interface` typed in the source
and is modelled by its rendered text; the `Timestamp` field plays no part
in the flow and is omitted. -/
structure MFAResponse where
  success : Bool
  resultValue : String
  message : String
  authMethodID : String
  errCode : Int
  retry : Bool
  flowToken : String
  ctx : String
  sessionID : String
  correlationID : String
  entropy : Int
deriving DecidableEq

/-- MFA method id constant `MFAPhoneAppOTP`. -/
def MFAPhoneAppOTP : String := "PhoneAppOTP"

/-- MFA method id constant `MFAPhoneAppNotification`. -/
def MFAPhoneAppNotification : String := "PhoneAppNotification"

/-- MFA method id constant `MFAOneWaySMS`. -/
def MFAOneWaySMS : String := "OneWaySMS"

/-- MFA method id constant `MFATwoWayVoiceMobile`. -/
def MFATwoWayVoiceMobile : String := "TwoWayVoiceMobile"

/-! ## HTML document model

The code inspects HTML exclusively through goquery with the selectors
`form`, `input`, `input[type='hidden']` and `input[name='SAMLResponse']`,
and reads the `action`, `name`, `value` attributes.  The document model
keeps exactly that structure: a document is a list of nodes in document
order, a node is a form (with its action attribute and its inputs) or an
input outside any form; an attribute is `Option String` (`none` =
attribute absent). -/

/-- An `input` element: its `type`, `name` and `value` attributes. -/
structure InputEl where
  typeAttr : Option String
  nameAttr : Option String
  valueAttr : Option String
deriving DecidableEq

/-- A `form` element: its `action` attribute and contained inputs. -/
structure FormEl where
  action : Option String
  inputs : List InputEl
deriving DecidableEq

/-- A top-level node of the parsed document. -/
inductive Node where
  | form (f : FormEl)
  | input (el : InputEl)
deriving DecidableEq

/-- A parsed HTML document (nodes in document order). -/
abbrev Doc := List Node

/-- All forms of a document in document order (`doc.Find "form"`). -/
def docForms (d : Doc) : List FormEl :=
  d.filterMap fun n =>
    match n with
    | .form f => some f
    | .input _ => none

/-- All inputs of a document in document order (`doc.Find "input"`). -/
def docInputs (d : Doc) : List InputEl :=
  d.flatMap fun n =>
    match n with
    | .form f => f.inputs
    | .input el => [el]

/-- The first form of the document (`doc.Find("form").First()`). -/
def firstForm (d : Doc) : Option FormEl := (docForms d).head?

/-! ## `url.Values` model -/

/-- `url.Values` as an association list with unique keys. -/
abbrev Values := List (String × String)

/-- `url.Values.Set`: replace the binding of `k`, or append it. -/
def setVal (vs : Values) (k v : String) : Values :=
  if vs.any (fun p => p.1 == k) then
    vs.map fun p => if p.1 == k then (k, v) else p
  else vs ++ [(k, v)]

/-! ## Response snapshot -/

/-- One buffered HTTP response: its final resolved request URL, its raw
body, and the outputs of the two external parsers applied to that body
(goquery document parse; `unmarshalEmbeddedJSON`, i.e. the
`regexp`-extracted and JSON-decoded `$Config` object — `none` when
extraction or decoding fails). -/
structure Body where
  url : String
  text : String
  doc : Doc
  config : Option ConvergedResponse
deriving DecidableEq

/-! ## Content extractors (from `flow.go`, `src/unnamed/part_006`) -/

/-- `isHiddenForm`: the document has a form, and a hidden input or an
input named `SAMLResponse` anywhere in the document. -/
def isHiddenForm (d : Doc) : Bool :=
  !(docForms d).isEmpty &&
    ((docInputs d).any (fun i => i.typeAttr == some "hidden") ||
     (docInputs d).any (fun i => i.nameAttr == some "SAMLResponse"))

/-- `getSAMLAssertion`: the `value` attribute of the first input named
`SAMLResponse` in the document, or `""` when there is no such input or it
has no `value` attribute. -/
def getSAMLAssertion (d : Doc) : String :=
  match (docInputs d).find? (fun i => i.nameAttr == some "SAMLResponse") with
  | some i =>
    match i.valueAttr with
    | some v => v
    | none => ""
  | none => ""

/-- The per-input step of `parseFormData`'s field collection: an input
with a present, non-empty `name` is entered with `url.Values.Set` (its
absent `value` reading as `""`); other inputs are skipped. -/
def formFieldStep (vs : Values) (i : InputEl) : Values :=
  match i.nameAttr with
  | some n => if n ≠ "" then setVal vs n (i.valueAttr.getD "") else vs
  | none => vs

/-- `parseFormData`: the first form's fields collected with
`url.Values.Set`, and its action URL (absent `action` reads as `""`). -/
def parseFormData (d : Doc) : Except String (Values × String) :=
  match firstForm d with
  | none => .error "form not found"
  | some f => .ok (f.inputs.foldl formFieldStep [], f.action.getD "")

/-- `fullURL`: a URL starting with `http` is taken as absolute; otherwise
it is resolved against the response's request URL.  RFC 3986 reference
resolution (`net/url.Parse` + `ResolveReference`, with parse failures
returning the relative URL unchanged) is external and supplied as the
`resolve` parameter. -/
def fullURL (resolve : String → String → String) (baseURL rel : String) : String :=
  if strStartsWith rel "http" then rel else resolve baseURL rel

/-! ## Page classifier

The `switch` at the head of the `authenticate` loop, in source order. -/

/-- The six states of the top-level state machine. -/
inductive PageState where
  | convergedSignIn
  | convergedTFA
  | kmsiInterrupt
  | samlRequest
  | hiddenForm
  | fallback
deriving DecidableEq

/-- The classifier: the `switch` over the raw response body at the top of
the `authenticate` loop, cases in source order (first match wins). -/
def classify (b : Body) : PageState :=
  if strContains b.text "ConvergedSignIn" then .convergedSignIn
  else if strContains b.text "ConvergedTFA" then .convergedTFA
  else if strContains b.text "KmsiInterrupt" then .kmsiInterrupt
  else if strContains b.text "SAMLRequest" then .samlRequest
  else if isHiddenForm b.doc then .hiddenForm
  else .fallback

/-! ## Network oracle and request trace -/

/-- One outbound HTTP request, tagged by the source call site that issues
it. -/
inductive TraceEvent where
  | startGet (url : String)
  | credentialTypeQuery (url : String) (req : GetCredentialTypeRequest)
  | passwordFormPost (url : String) (fields : Values)
  | federationGet (url : String)
  | federationFormPost (url : String) (fields : Values)
  | skipMfaGet (url : String)
  | mfaBeginPost (url : String) (req : MFARequest)
  | mfaEndPost (url : String) (req : MFARequest)
  | mfaCompletionPost (url : String) (fields : Values)
  | kmsiPost (url : String) (fields : Values)
  | samlRelayPost (url : String) (fields : Values)
  | formRelayPost (url : String) (fields : Values)
deriving DecidableEq

/-- The environment: how the server answers each kind of exchange, plus
the external RFC 3986 resolver and the interactive verification-code
prompt.  `none` stands for a transport or decode failure.  EndAuth poll
answers are consumed in order from `endAuth`; an exhausted list stands
for a failing poll exchange. -/
structure Net where
  resolve : String → String → String
  get : String → Option Body
  post : String → Values → Option Body
  credType : String → GetCredentialTypeRequest → Option GetCredentialTypeResponse
  beginAuth : String → MFARequest → Option MFAResponse
  endAuth : List MFAResponse
  prompt : Nat → String

/-- Hard failures of the handlers, one constructor per `return nil, err`
site that the model distinguishes. -/
inductive HErr where
  | parseConfigFailed
  | credTypeFailed
  | loginError (code txt : String)
  | federationFormParseFailed
  | federationFormURLMissing
  | formParseFailed
  | formURLMissing
  | noMFAMethods
  | mfaBeginRequestFailed
  | mfaBeginFailed (msg : String)
  | mfaEndRequestFailed
  | mfaError (code : Int) (msg : String)
  | mfaFailed
  | networkError
deriving DecidableEq

/-- A handler's outcome: the next response (or a hard failure), together
with the requests it issued. -/
abbrev HResult := Except HErr Body × List TraceEvent

/-! ## ConvergedSignIn handler (`processConvergedSignIn` and helpers) -/

/-- The credential-type query body built by `requestGetCredentialType`
(unset Go struct fields keep their zero values). -/
def mkGetCredentialTypeRequest (creds : LoginCredentials) (cfg : ConvergedResponse) :
    GetCredentialTypeRequest where
  username := creds.username
  isOtherIdpSupported := true
  checkPhones := false
  isRemoteNGCSupported := false
  isCookieBannerShown := false
  isFidoSupported := false
  originalRequest := cfg.sCtx
  country := ""
  forceotclogin := false
  isExternalFederationDisallowed := false
  isRemoteConnectSupported := false
  federationFlags := 0
  isSignup := false
  flowToken := cfg.sFT
  isAccessPassSupported := false

/-- The password-entry form of `processAuthentication`, fields set in
source order. -/
def passwordFormValues (creds : LoginCredentials) (cfg : ConvergedResponse) : Values :=
  let vs := setVal [] "canary" cfg.canary
  let vs := setVal vs "hpgrequestid" cfg.sessionID
  let vs := setVal vs cfg.sFTName cfg.sFT
  let vs := setVal vs "ctx" cfg.sCtx
  let vs := setVal vs "login" creds.username
  let vs := setVal vs "loginfmt" creds.username
  setVal vs "passwd" creds.password

/-- `processAuthentication`: reject a non-benign pre-existing error code,
then post the password form to the login URL. -/
def processAuthentication (net : Net) (loginURL _refererURL : String)
    (creds : LoginCredentials) (cfg : ConvergedResponse) : HResult :=
  if cfg.sErrorCode ≠ "" ∧ cfg.sErrorCode ≠ "50058" then
    (.error (.loginError cfg.sErrorCode cfg.sErrTxt), [])
  else
    let fields := passwordFormValues creds cfg
    match net.post loginURL fields with
    | none => (.error .networkError, [.passwordFormPost loginURL fields])
    | some b => (.ok b, [.passwordFormPost loginURL fields])

/-- `processFederatedAuth`: fetch the federation URL, extract its form,
overlay the ADFS credential fields, and post to the form's action URL. -/
def processFederatedAuth (net : Net) (creds : LoginCredentials) (federationURL : String) :
    HResult :=
  match net.get federationURL with
  | none => (.error .networkError, [.federationGet federationURL])
  | some fb =>
    match parseFormData fb.doc with
    | .error _ => (.error .federationFormParseFailed, [.federationGet federationURL])
    | .ok (formValues, formSubmitURL) =>
      if formSubmitURL = "" then
        (.error .federationFormURLMissing, [.federationGet federationURL])
      else
        let fv := setVal formValues "UserName" creds.username
        let fv := setVal fv "Password" creds.password
        let fv := setVal fv "AuthMethod" "FormsAuthentication"
        let target := fullURL net.resolve fb.url formSubmitURL
        match net.post target fv with
        | none =>
          (.error .networkError, [.federationGet federationURL, .federationFormPost target fv])
        | some b =>
          (.ok b, [.federationGet federationURL, .federationFormPost target fv])

/-- `processConvergedSignIn`: parse the session context, query the
credential type, and branch to federated or direct password
authentication. -/
def processConvergedSignIn (net : Net) (creds : LoginCredentials) (b : Body) : HResult :=
  match b.config with
  | none => (.error .parseConfigFailed, [])
  | some cfg =>
    let loginURL := fullURL net.resolve b.url cfg.urlPost
    let refererURL := b.url
    let ctReq := mkGetCredentialTypeRequest creds cfg
    match net.credType cfg.urlGetCredentialType ctReq with
    | none => (.error .credTypeFailed, [.credentialTypeQuery cfg.urlGetCredentialType ctReq])
    | some ct =>
      if ct.credentials.federationRedirectURL ≠ "" then
        let fed := processFederatedAuth net creds ct.credentials.federationRedirectURL
        (fed.1, .credentialTypeQuery cfg.urlGetCredentialType ctReq :: fed.2)
      else
        let auth := processAuthentication net loginURL refererURL creds cfg
        (auth.1, .credentialTypeQuery cfg.urlGetCredentialType ctReq :: auth.2)

/-! ## MFA sub-protocol driver (`mfa.go`, `src/unnamed/part_002`) -/

/-- The User-Proof selection of `processMFABeginAuth`: start from the
first entry, then take the first entry flagged as default if one exists. -/
def selectUserProof : List UserProof → Option UserProof
  | [] => none
  | m :: ms => some (((m :: ms).find? (fun v => v.isDefault)).getD m)

/-- The BeginAuth request body. -/
def mkBeginAuthRequest (mfa : UserProof) (cfg : ConvergedResponse) : MFARequest where
  authMethodID := mfa.authMethodID
  method := "BeginAuth"
  ctx := cfg.sCtx
  flowToken := cfg.sFT
  sessionID := ""
  additionalAuthData := ""

/-- `processMFABeginAuth`: select a User Proof, post the BeginAuth
request, and require a successful response.  (The source indexes
`mfas[0]` directly; the caller guarantees non-emptiness, and the empty
case is mapped to a hard failure here.) -/
def processMFABeginAuth (net : Net) (mfas : List UserProof) (cfg : ConvergedResponse) :
    Except HErr MFAResponse × List TraceEvent :=
  match selectUserProof mfas with
  | none => (.error .noMFAMethods, [])
  | some mfa =>
    let req := mkBeginAuthRequest mfa cfg
    match net.beginAuth cfg.urlBeginAuth req with
    | none => (.error .mfaBeginRequestFailed, [.mfaBeginPost cfg.urlBeginAuth req])
    | some resp =>
      if resp.success then (.ok resp, [.mfaBeginPost cfg.urlBeginAuth req])
      else (.error (.mfaBeginFailed resp.message), [.mfaBeginPost cfg.urlBeginAuth req])

/-- The advertised polling interval for a method id, defaulting to 2
seconds when the id is absent from `oPerAuthPollingInterval`. -/
def lookupInterval (cfg : ConvergedResponse) (methodID : String) : Nat :=
  match List.lookup methodID cfg.oPerAuthPollingInterval with
  | some n => n
  | none => 2

/-- The EndAuth request built at the top of each poll iteration from the
previous MFA exchange state: for one-time-code methods the verification
code is the pre-supplied token, else the interactively prompted code of
iteration `i`. -/
def buildEndAuthRequest (creds : LoginCredentials) (prompt : Nat → String) (i : Nat)
    (cur : MFAResponse) : MFARequest :=
  let base : MFARequest :=
    { authMethodID := cur.authMethodID
      method := "EndAuth"
      ctx := cur.ctx
      flowToken := cur.flowToken
      sessionID := cur.sessionID
      additionalAuthData := "" }
  if cur.authMethodID = MFAPhoneAppOTP ∨ cur.authMethodID = MFAOneWaySMS then
    if creds.mfaToken ≠ "" then { base with additionalAuthData := creds.mfaToken }
    else { base with additionalAuthData := prompt i }
  else base

/-- Outcome of the MFA poll loop: its result, the EndAuth requests issued
(in order), and the sleeps performed between consecutive calls (seconds,
in order). -/
structure PollResult where
  outcome : Except HErr MFAResponse
  calls : List MFARequest
  sleeps : List Nat

/-- The poll loop of `processMFA` (`for i := 0; ; i++`), consuming the
EndAuth answers in order.  An exhausted answer list stands for a failing
EndAuth exchange.  Per source order: a nonzero error code is a hard
failure; success ends the loop; a retryable response sleeps by the
method's advertised interval (default 2 s) and loops; a non-retryable,
non-successful response ends the loop and the driver fails. -/
def processMFAPoll (cfg : ConvergedResponse) (creds : LoginCredentials)
    (prompt : Nat → String) : Nat → MFAResponse → List MFAResponse → PollResult
  | i, cur, [] =>
    { outcome := .error .mfaEndRequestFailed
      calls := [buildEndAuthRequest creds prompt i cur]
      sleeps := [] }
  | i, cur, r :: rest =>
    let req := buildEndAuthRequest creds prompt i cur
    if r.errCode ≠ 0 then
      { outcome := .error (.mfaError r.errCode r.message), calls := [req], sleeps := [] }
    else if r.success then
      { outcome := .ok r, calls := [req], sleeps := [] }
    else if r.retry then
      let tail := processMFAPoll cfg creds prompt (i + 1) r rest
      { outcome := tail.outcome
        calls := req :: tail.calls
        sleeps := lookupInterval cfg r.authMethodID :: tail.sleeps }
    else
      { outcome := .error .mfaFailed, calls := [req], sleeps := [] }

/-- The MFA completion form of `processMFAAuth`, fields set in source
order. -/
def mfaCompletionValues (mfaResp : MFAResponse) (cfg : ConvergedResponse) : Values :=
  let vs := setVal [] "request" mfaResp.ctx
  let vs := setVal vs "mfaAuthMethod" mfaResp.authMethodID
  let vs := setVal vs "canary" cfg.canary
  let vs := setVal vs "login" cfg.sPOSTUsername
  setVal vs cfg.sFTName mfaResp.flowToken

/-- `processMFAAuth`: post the completion form to the page's post-back
URL. -/
def processMFAAuth (net : Net) (mfaResp : MFAResponse) (cfg : ConvergedResponse) : HResult :=
  let fields := mfaCompletionValues mfaResp cfg
  match net.post cfg.urlPost fields with
  | none => (.error .networkError, [.mfaCompletionPost cfg.urlPost fields])
  | some b => (.ok b, [.mfaCompletionPost cfg.urlPost fields])

/-- `processMFA`: begin the challenge, run the poll loop, and on success
post the completion form. -/
def processMFA (net : Net) (creds : LoginCredentials) (mfas : List UserProof)
    (cfg : ConvergedResponse) : HResult :=
  if mfas.isEmpty then (.error .noMFAMethods, [])
  else
    match processMFABeginAuth net mfas cfg with
    | (.error e, t) => (.error e, t)
    | (.ok beginResp, t) =>
      let pr := processMFAPoll cfg creds net.prompt 0 beginResp net.endAuth
      let endEvents := pr.calls.map fun req => TraceEvent.mfaEndPost cfg.urlEndAuth req
      match pr.outcome with
      | .error e => (.error e, t ++ endEvents)
      | .ok finalResp =>
        let fin := processMFAAuth net finalResp cfg
        (fin.1, t ++ endEvents ++ fin.2)

/-- `processConvergedTFA`: parse the session context; follow the
skip-MFA-registration URL when advertised; otherwise run the MFA driver
when User Proofs are listed; otherwise return the current response
unchanged. -/
def processConvergedTFA (net : Net) (creds : LoginCredentials) (b : Body) : HResult :=
  match b.config with
  | none => (.error .parseConfigFailed, [])
  | some cfg =>
    if cfg.urlSkipMfaRegistration ≠ "" then
      match net.get cfg.urlSkipMfaRegistration with
      | none => (.error .networkError, [.skipMfaGet cfg.urlSkipMfaRegistration])
      | some b' => (.ok b', [.skipMfaGet cfg.urlSkipMfaRegistration])
    else if cfg.arrUserProofs.length > 0 then
      processMFA net creds cfg.arrUserProofs cfg
    else (.ok b, [])

/-! ## KMSI, SAML-relay and hidden-form handlers -/

/-- The KMSI interstitial form, fields set in source order
(`LoginOptions = 1`: do not stay signed in). -/
def kmsiFormValues (cfg : ConvergedResponse) : Values :=
  let vs := setVal [] cfg.sFTName cfg.sFT
  let vs := setVal vs "ctx" cfg.sCtx
  setVal vs "LoginOptions" "1"

/-- `processKmsiInterrupt`: post the interstitial's tokens with the
do-not-keep-signed-in choice.  (The one-shot redirect-disable around this
exchange is a transport toggle; the oracle answers with the response the
handler observes.) -/
def processKmsiInterrupt (net : Net) (b : Body) : HResult :=
  match b.config with
  | none => (.error .parseConfigFailed, [])
  | some cfg =>
    let fields := kmsiFormValues cfg
    let target := fullURL net.resolve b.url cfg.urlPost
    match net.post target fields with
    | none => (.error .networkError, [.kmsiPost target fields])
    | some b' => (.ok b', [.kmsiPost target fields])

/-- `processSAMLRequest`: extract the embedded form and re-post it,
resolving the action URL against the current response URL. -/
def processSAMLRequest (net : Net) (b : Body) : HResult :=
  match parseFormData b.doc with
  | .error _ => (.error .formParseFailed, [])
  | .ok (fv, formSubmitURL) =>
    if formSubmitURL = "" then (.error .formURLMissing, [])
    else
      let target := fullURL net.resolve b.url formSubmitURL
      match net.post target fv with
      | none => (.error .networkError, [.samlRelayPost target fv])
      | some b' => (.ok b', [.samlRelayPost target fv])

/-- `reProcessForm`: extract the embedded form and re-post its fields
verbatim to its action URL. -/
def reProcessForm (net : Net) (b : Body) : HResult :=
  match parseFormData b.doc with
  | .error _ => (.error .formParseFailed, [])
  | .ok (fv, formSubmitURL) =>
    if formSubmitURL = "" then (.error .formURLMissing, [])
    else
      match net.post formSubmitURL fv with
      | none => (.error .networkError, [.formRelayPost formSubmitURL fv])
      | some b' => (.ok b', [.formRelayPost formSubmitURL fv])

/-! ## The main authenticate loop -/

/-- Terminal results of the `authenticate` loop. -/
inductive AuthRes where
  | assertion (v : String)
  | authError (code txt : String)
  | unknownState
  | startFailed
  | handlerFailure (st : PageState) (e : HErr)
deriving DecidableEq

/-- The `default` case of the loop's `switch`: report an embedded
non-benign server error code when one is present, else the unrecognized
state error. -/
def fallbackResult (b : Body) : AuthRes :=
  if strContains b.text "sErrorCode" then
    match b.config with
    | some cfg =>
      if cfg.sErrorCode ≠ "" ∧ cfg.sErrorCode ≠ "50058" then
        .authError cfg.sErrorCode cfg.sErrTxt
      else .unknownState
    | none => .unknownState
  else .unknownState

/-- Feed a handler's outcome back into the loop: a hard failure
terminates the loop, a new response continues it. -/
def contStep (k : Body → Option (AuthRes × List TraceEvent)) (st : PageState)
    (hr : HResult) : Option (AuthRes × List TraceEvent) :=
  match hr with
  | (.error e, t) => some (.handlerFailure st e, t)
  | (.ok b', t) =>
    match k b' with
    | none => none
    | some (r, t') => some (r, t ++ t')

/-- The main authentication loop (`for` in `authenticate`), with explicit
fuel: classify the current response and dispatch to the matching handler;
a hidden form carrying a non-empty `SAMLResponse` value terminates with
that value; the fallback terminates with `fallbackResult`.  `none` means
the loop did not terminate within `fuel` iterations.  The result carries
the requests issued from the current response onward. -/
def authLoop (net : Net) (creds : LoginCredentials) :
    Nat → Body → Option (AuthRes × List TraceEvent)
  | 0, _ => none
  | fuel + 1, b =>
    match classify b with
    | .convergedSignIn =>
      contStep (fun b' => authLoop net creds fuel b') .convergedSignIn
        (processConvergedSignIn net creds b)
    | .convergedTFA =>
      contStep (fun b' => authLoop net creds fuel b') .convergedTFA
        (processConvergedTFA net creds b)
    | .kmsiInterrupt =>
      contStep (fun b' => authLoop net creds fuel b') .kmsiInterrupt
        (processKmsiInterrupt net b)
    | .samlRequest =>
      contStep (fun b' => authLoop net creds fuel b') .samlRequest
        (processSAMLRequest net b)
    | .hiddenForm =>
      if getSAMLAssertion b.doc ≠ "" then some (.assertion (getSAMLAssertion b.doc), [])
      else contStep (fun b' => authLoop net creds fuel b') .hiddenForm (reProcessForm net b)
    | .fallback => some (fallbackResult b, [])

/-- `authenticate`: fetch the flow's starting URL and run the loop. -/
def authenticate (net : Net) (creds : LoginCredentials) (fuel : Nat)
    (baseURL appID : String) : Option (AuthRes × List TraceEvent) :=
  let startURL :=
    baseURL ++ "/applications/redirecttofederatedapplication.aspx?Operation=LinkedSignIn&applicationId="
      ++ appID
  match net.get startURL with
  | none => some (.startFailed, [.startGet startURL])
  | some b =>
    match authLoop net creds fuel b with
    | none => none
    | some (r, t) => some (r, .startGet startURL :: t)

/-! ## The `Authenticate` entry point (`client.go`) -/

/-- The transport session state owned by the client: its cookie jar and
its redirect-following toggle. -/
structure SessionState where
  cookies : List (String × String)
  followRedirects : Bool
deriving DecidableEq

/-- Result of the `Authenticate` entry point: an input-validation error
from the guards, or the inner flow's outcome. -/
inductive AuthOutcome where
  | guardError (msg : String)
  | flowResult (r : Option (AuthRes × List TraceEvent))
deriving DecidableEq

/-- `Client.Authenticate`: validate the credentials (nil, empty username,
empty password — in source order) and delegate to the inner
`authenticate` flow.  `creds = none` models a nil pointer.  The inner
flow `inner` is given the session state and reports the outcome, the
updated session state, and the requests it issued; the guards touch none
of these. -/
def Authenticate
    (inner : LoginCredentials → SessionState → AuthOutcome × SessionState × List TraceEvent)
    (st : SessionState) (creds : Option LoginCredentials) :
    AuthOutcome × SessionState × List TraceEvent :=
  match creds with
  | none => (.guardError "credentials cannot be nil", st, [])
  | some c =>
    if c.username = "" then (.guardError "username is required", st, [])
    else if c.password = "" then (.guardError "password is required", st, [])
    else inner c st

/-! ## Spec-side form-field reading

For the relay round-trip property the spec speaks of "the set of fields
of the source form".  `formFields` renders that reading: every input of
the form whose `name` attribute is present and non-empty contributes its
name/value pair, an absent `value` attribute reading as the empty
string. -/

/-- The name/value pairs contributed by a list of inputs, in input
order. -/
def inputFields (l : List InputEl) : Values :=
  l.filterMap fun i =>
    match i.nameAttr with
    | some n => if n ≠ "" then some (n, i.valueAttr.getD "") else none
    | none => none

/-- The name/value pairs of a source form, read off the form directly. -/
def formFields (f : FormEl) : Values := inputFields f.inputs

/-! ## Sample inputs used by witnesses -/

/-- An environment whose exchanges all fail; used where a witness does
not depend on server answers. -/
def sampleNet : Net where
  resolve := fun _ rel => rel
  get := fun _ => none
  post := fun _ _ => none
  credType := fun _ _ => none
  beginAuth := fun _ _ => none
  endAuth := []
  prompt := fun _ => ""

/-- Concrete credentials for witnesses. -/
def sampleCreds : LoginCredentials where
  username := "user@example.com"
  password := "hunter2"
  mfaToken := ""

/-- A session context with every field empty or zero. -/
def emptyConfig : ConvergedResponse where
  urlGetCredentialType := ""
  arrUserProofs := []
  urlSkipMfaRegistration := ""
  oPerAuthPollingInterval := []
  urlBeginAuth := ""
  urlEndAuth := ""
  urlPost := ""
  sErrorCode := ""
  sErrTxt := ""
  sPOSTUsername := ""
  sFT := ""
  sFTName := ""
  sCtx := ""
  hpgact := 0
  hpgid := 0
  pgid := ""
  apiCanary := ""
  canary := ""
  correlationID := ""
  sessionID := ""

/-- An MFA exchange state with every field empty or zero. -/
def emptyMFAResponse : MFAResponse where
  success := false
  resultValue := ""
  message := ""
  authMethodID := ""
  errCode := 0
  retry := false
  flowToken := ""
  ctx := ""
  sessionID := ""
  correlationID := ""
  entropy := 0

/-! ## Claims -/

/-- C1: for every response body, the classifier of the main authenticate
loop selects the handler by checking the content markers in the fixed
priority order ConvergedSignIn, ConvergedTFA, KmsiInterrupt, SAMLRequest,
hidden form, fallback — first match wins — so even when a body textually
contains several markers, the state of the highest-priority present
marker is the one selected. -/
theorem classifier_priority_order (b : Body) :
    (strContains b.text "ConvergedSignIn" = true → classify b = .convergedSignIn) ∧
    (strContains b.text "ConvergedSignIn" = false →
      strContains b.text "ConvergedTFA" = true → classify b = .convergedTFA) ∧
    (strContains b.text "ConvergedSignIn" = false →
      strContains b.text "ConvergedTFA" = false →
      strContains b.text "KmsiInterrupt" = true → classify b = .kmsiInterrupt) ∧
    (strContains b.text "ConvergedSignIn" = false →
      strContains b.text "ConvergedTFA" = false →
      strContains b.text "KmsiInterrupt" = false →
      strContains b.text "SAMLRequest" = true → classify b = .samlRequest) ∧
    (strContains b.text "ConvergedSignIn" = false →
      strContains b.text "ConvergedTFA" = false →
      strContains b.text "KmsiInterrupt" = false →
      strContains b.text "SAMLRequest" = false →
      isHiddenForm b.doc = true → classify b = .hiddenForm) ∧
    (strContains b.text "ConvergedSignIn" = false →
      strContains b.text "ConvergedTFA" = false →
      strContains b.text "KmsiInterrupt" = false →
      strContains b.text "SAMLRequest" = false →
      isHiddenForm b.doc = false → classify b = .fallback) := by
  unfold classify
  refine ⟨?_, ?_, ?_, ?_, ?_, ?_⟩ <;> intros <;> simp_all

/-- A body that carries all four textual markers and a hidden form at
once. -/
def bodyAllMarkers : Body where
  url := "https://login.example/start"
  text := "ConvergedSignIn ConvergedTFA KmsiInterrupt SAMLRequest"
  doc := [.form { action := some "https://sp.example/acs",
                  inputs := [{ typeAttr := some "hidden", nameAttr := some "x",
                               valueAttr := some "y" }] }]
  config := none

/-- Witness for C1: a body containing every marker classifies as the
highest-priority one. -/
theorem classifier_priority_order_witness :
    strContains bodyAllMarkers.text "ConvergedSignIn" = true ∧
    strContains bodyAllMarkers.text "ConvergedTFA" = true ∧
    strContains bodyAllMarkers.text "KmsiInterrupt" = true ∧
    strContains bodyAllMarkers.text "SAMLRequest" = true ∧
    isHiddenForm bodyAllMarkers.doc = true ∧
    classify bodyAllMarkers = .convergedSignIn :=
  ⟨by decide, by decide, by decide, by decide, by decide,
    (classifier_priority_order bodyAllMarkers).1 (by decide)⟩

/-- A ConvergedTFA page whose session context advertises no
skip-registration URL and no User Proofs. -/
def bodyTFANoProofs : Body where
  url := "https://login.example/tfa"
  text := "pgid ConvergedTFA"
  doc := []
  config := some emptyConfig

/-- C3 (failing input): on a ConvergedTFA page with no skip-registration
URL and no User Proofs, `processConvergedTFA` returns its own input
response unchanged, which re-classifies to ConvergedTFA; the authenticate
loop therefore revisits the same state forever and never terminates
(`authLoop` yields `none` for every amount of fuel), contradicting the
claim that no handler loops back to the state it just handled and that
the loop terminates only via success or an explicit error. -/
theorem convergedTFA_no_proofs_loops_forever :
    classify bodyTFANoProofs = .convergedTFA ∧
    (∀ net creds, processConvergedTFA net creds bodyTFANoProofs = (.ok bodyTFANoProofs, [])) ∧
    (∀ net creds fuel, authLoop net creds fuel bodyTFANoProofs = none) := by
  have h1 : classify bodyTFANoProofs = .convergedTFA := by decide
  have h2 : ∀ net creds, processConvergedTFA net creds bodyTFANoProofs = (.ok bodyTFANoProofs, []) := by
    intro net creds; rfl
  refine ⟨h1, h2, ?_⟩
  intro net creds fuel
  induction fuel with
  | zero => rfl
  | succ n ih =>
    simp only [authLoop, h1, h2, contStep, ih]

/-- C6: a nonzero error code in an EndAuth response stops the MFA poll
loop immediately — exactly the one call that produced it, no sleep — with
a hard failure carrying that code and message, regardless of the
response's Success and Retry flags. -/
theorem mfa_poll_hard_error_stops (cfg : ConvergedResponse) (creds : LoginCredentials)
    (prompt : Nat → String) (i : Nat) (cur r : MFAResponse) (rest : List MFAResponse)
    (h : r.errCode ≠ 0) :
    processMFAPoll cfg creds prompt i cur (r :: rest) =
      { outcome := .error (.mfaError r.errCode r.message)
        calls := [buildEndAuthRequest creds prompt i cur]
        sleeps := [] } := by
  simp [processMFAPoll, h]

/-- An EndAuth response carrying a hard error code together with both
`Success` and `Retry` set. -/
def errorMFAResponse : MFAResponse :=
  { emptyMFAResponse with
      success := true
      retry := true
      errCode := 500121
      message := "Authentication denied"
      authMethodID := "PhoneAppNotification" }

/-- Witness for C6: the poll loop at a hard-error response with both
flags set stops after the single call with that code and message. -/
theorem mfa_poll_hard_error_stops_witness :
    processMFAPoll emptyConfig sampleCreds (fun _ => "") 0 emptyMFAResponse
        [errorMFAResponse, emptyMFAResponse] =
      { outcome := .error (.mfaError 500121 "Authentication denied")
        calls := [buildEndAuthRequest sampleCreds (fun _ => "") 0 emptyMFAResponse]
        sleeps := [] } :=
  mfa_poll_hard_error_stops emptyConfig sampleCreds (fun _ => "") 0 emptyMFAResponse
    errorMFAResponse [emptyMFAResponse] (by decide)

/-- C10: `Authenticate` with nil credentials, an empty username, or an
empty password returns the corresponding guard error without invoking the
inner flow: no request is issued and the session state is returned
unchanged, whatever the inner flow would do. -/
theorem authenticate_input_guards
    (inner : LoginCredentials → SessionState → AuthOutcome × SessionState × List TraceEvent)
    (st : SessionState) (creds : Option LoginCredentials) :
    (creds = none →
      Authenticate inner st creds = (.guardError "credentials cannot be nil", st, [])) ∧
    (∀ c, creds = some c → c.username = "" →
      Authenticate inner st creds = (.guardError "username is required", st, [])) ∧
    (∀ c, creds = some c → c.username ≠ "" → c.password = "" →
      Authenticate inner st creds = (.guardError "password is required", st, [])) := by
  refine ⟨?_, ?_, ?_⟩
  · intro h; subst h; rfl
  · intro c h hu; subst h; simp [Authenticate, hu]
  · intro c h hu hp; subst h; simp [Authenticate, hu, hp]

/-- C2: a response classified as a hidden form (so none of the
higher-priority markers are present) whose form carries the document's
`SAMLResponse` input with a non-empty value `V` makes the loop return
exactly `V` as the assertion, with no further requests issued. -/
theorem hidden_form_terminal_extraction (net : Net) (creds : LoginCredentials) (fuel : Nat)
    (b : Body) (f : FormEl) (inp : InputEl) (V : String)
    (hclass : classify b = .hiddenForm)
    (_hform : firstForm b.doc = some f)
    (_hmem : inp ∈ f.inputs)
    (hfind : (docInputs b.doc).find? (fun i => i.nameAttr == some "SAMLResponse") = some inp)
    (hval : inp.valueAttr = some V)
    (hV : V ≠ "") :
    getSAMLAssertion b.doc = V ∧
    authLoop net creds (fuel + 1) b = some (.assertion V, []) := by
  have hget : getSAMLAssertion b.doc = V := by
    unfold getSAMLAssertion
    rw [hfind]
    simp [hval]
  refine ⟨hget, ?_⟩
  simp only [authLoop, hclass, hget]
  simp [hV]

/-- A terminal page: a hidden form whose `SAMLResponse` field carries the
assertion. -/
def bodyAssertion : Body where
  url := "https://sp.example/acs-page"
  text := "document.forms 0 .submit"
  doc := [.form { action := some "https://sp.example/acs",
                  inputs := [{ typeAttr := some "hidden", nameAttr := some "RelayState",
                               valueAttr := some "rs" },
                             { typeAttr := some "hidden", nameAttr := some "SAMLResponse",
                               valueAttr := some "PHNhbWxwOlJlc3BvbnNlPg==" }] }]
  config := none

/-- Witness for C2 at a concrete terminal page. -/
theorem hidden_form_terminal_extraction_witness :
    getSAMLAssertion bodyAssertion.doc = "PHNhbWxwOlJlc3BvbnNlPg==" ∧
    authLoop sampleNet sampleCreds 1 bodyAssertion =
      some (.assertion "PHNhbWxwOlJlc3BvbnNlPg==", []) :=
  hidden_form_terminal_extraction sampleNet sampleCreds 0 bodyAssertion
    { action := some "https://sp.example/acs",
      inputs := [{ typeAttr := some "hidden", nameAttr := some "RelayState",
                   valueAttr := some "rs" },
                 { typeAttr := some "hidden", nameAttr := some "SAMLResponse",
                   valueAttr := some "PHNhbWxwOlJlc3BvbnNlPg==" }] }
    { typeAttr := some "hidden", nameAttr := some "SAMLResponse",
      valueAttr := some "PHNhbWxwOlJlc3BvbnNlPg==" }
    "PHNhbWxwOlJlc3BvbnNlPg=="
    (by decide) (by decide) (by decide) (by decide) (by decide) (by decide)

/-- C4: an EndAuth answer sequence of `n` retryable responses (retry set,
no success, zero error code) followed by one success makes the poll loop
perform exactly `n + 1` EndAuth calls and exactly `n` sleeps — each sleep
the advertised interval of the response's method id when present in the
interval map, else the 2-second default — and return the final success
state. -/
theorem mfa_poll_retry_then_success (cfg : ConvergedResponse) (creds : LoginCredentials)
    (prompt : Nat → String) (i : Nat) (cur final : MFAResponse) (rs : List MFAResponse)
    (hrs : ∀ r ∈ rs, r.errCode = 0 ∧ r.success = false ∧ r.retry = true)
    (hfe : final.errCode = 0) (hfs : final.success = true) :
    (processMFAPoll cfg creds prompt i cur (rs ++ [final])).outcome = .ok final ∧
    (processMFAPoll cfg creds prompt i cur (rs ++ [final])).calls.length = rs.length + 1 ∧
    (processMFAPoll cfg creds prompt i cur (rs ++ [final])).sleeps =
      rs.map (fun r => lookupInterval cfg r.authMethodID) := by
  revert hrs
  induction rs generalizing i cur with
  | nil =>
    intro _
    refine ⟨?_, ?_, ?_⟩ <;> simp [processMFAPoll, hfe, hfs]
  | cons r rest ih =>
    intro hrs
    have hr := hrs r (by simp)
    have hrest : ∀ x ∈ rest, x.errCode = 0 ∧ x.success = false ∧ x.retry = true :=
      fun x hx => hrs x (by simp [hx])
    obtain ⟨ihA, ihB, ihC⟩ := ih (i + 1) r hrest
    simp only [List.cons_append, processMFAPoll, hr.1, hr.2.1, hr.2.2]
    refine ⟨?_, ?_, ?_⟩ <;> simp [ihA, ihB, ihC]

/-- A session context advertising a 5-second polling interval for the
push-notification method only. -/
def pollCfg : ConvergedResponse :=
  { emptyConfig with oPerAuthPollingInterval := [("PhoneAppNotification", 5)] }

/-- A retryable EndAuth answer for a method present in the interval map. -/
def retryRespMapped : MFAResponse :=
  { emptyMFAResponse with retry := true, authMethodID := "PhoneAppNotification" }

/-- A retryable EndAuth answer for a method absent from the interval
map. -/
def retryRespUnmapped : MFAResponse :=
  { emptyMFAResponse with retry := true, authMethodID := "TwoWayVoiceMobile" }

/-- A successful EndAuth answer. -/
def successResp : MFAResponse :=
  { emptyMFAResponse with success := true, authMethodID := "PhoneAppNotification",
                          flowToken := "ft2" }

/-- Witness for C4: two retryable answers then success give three calls
and the sleeps 5 (advertised) and 2 (default). -/
theorem mfa_poll_retry_then_success_witness :
    (processMFAPoll pollCfg sampleCreds (fun _ => "") 0 emptyMFAResponse
        [retryRespMapped, retryRespUnmapped, successResp]).outcome = .ok successResp ∧
    (processMFAPoll pollCfg sampleCreds (fun _ => "") 0 emptyMFAResponse
        [retryRespMapped, retryRespUnmapped, successResp]).calls.length = 3 ∧
    (processMFAPoll pollCfg sampleCreds (fun _ => "") 0 emptyMFAResponse
        [retryRespMapped, retryRespUnmapped, successResp]).sleeps = [5, 2] := by
  have h := mfa_poll_retry_then_success pollCfg sampleCreds (fun _ => "") 0 emptyMFAResponse
    successResp [retryRespMapped, retryRespUnmapped] (by decide) (by decide) (by decide)
  exact ⟨h.1, h.2.1, h.2.2.trans (by decide)⟩

/-- C7: on a response matching none of the five markers the loop
terminates at once with no further requests: with an embedded non-benign
server error code it fails with the authentication error carrying that
code and text; with no embedded code (or only the benign 50058) it fails
with the distinct unrecognized-state error. -/
theorem fallback_error_paths (net : Net) (creds : LoginCredentials) (fuel : Nat) (b : Body)
    (hclass : classify b = .fallback) :
    (∀ cfg : ConvergedResponse, strContains b.text "sErrorCode" = true →
      b.config = some cfg → cfg.sErrorCode ≠ "" → cfg.sErrorCode ≠ "50058" →
      authLoop net creds (fuel + 1) b = some (.authError cfg.sErrorCode cfg.sErrTxt, [])) ∧
    ((b.config = none ∨
        ∃ cfg, b.config = some cfg ∧ (cfg.sErrorCode = "" ∨ cfg.sErrorCode = "50058")) →
      authLoop net creds (fuel + 1) b = some (.unknownState, [])) := by
  have hstep : authLoop net creds (fuel + 1) b = some (fallbackResult b, []) := by
    simp only [authLoop, hclass]
  constructor
  · intro cfg hs hcfg h1 h2
    rw [hstep]
    unfold fallbackResult
    simp [hs, hcfg, h1, h2]
  · intro h
    rw [hstep]
    unfold fallbackResult
    rcases h with hnone | ⟨cfg, hcfg, hcode⟩
    · cases hst : strContains b.text "sErrorCode" <;> simp [hnone]
    · cases hst : strContains b.text "sErrorCode" <;> simp [hcfg]
      rcases hcode with h | h <;> simp [h]

/-- An unclassifiable page embedding the server error code 50199. -/
def bodyServerError : Body where
  url := "https://login.example/err"
  text := "sErrorCode 50199"
  doc := []
  config := some { emptyConfig with sErrorCode := "50199", sErrTxt := "User account locked" }

/-- Witness for C7 at a page embedding a non-benign error code. -/
theorem fallback_error_paths_witness :
    authLoop sampleNet sampleCreds 1 bodyServerError =
      some (.authError "50199" "User account locked", []) :=
  (fallback_error_paths sampleNet sampleCreds 0 bodyServerError (by decide)).1
    { emptyConfig with sErrorCode := "50199", sErrTxt := "User account locked" }
    (by decide) (by decide) (by decide) (by decide)

/-- Helper: if filtering a list by `p` leaves exactly `[a]`, then the
first element satisfying `p` is `a`. -/
theorem find?_eq_of_filter_eq_singleton {α : Type} (p : α → Bool) :
    ∀ (l : List α) (a : α), l.filter p = [a] → l.find? p = some a := by
  intro l
  induction l with
  | nil => intro a h; simp at h
  | cons x xs ih =>
    intro a h
    by_cases hx : p x = true
    · rw [List.filter_cons_of_pos hx] at h
      rw [List.find?_cons_of_pos _ hx]
      simp only [List.cons.injEq] at h
      rw [h.1]
    · rw [List.filter_cons_of_neg (by simp [hx])] at h
      rw [List.find?_cons_of_neg _ (by simp [hx])]
      exact ih a h

/-- C5: the begin-challenge step selects the User Proof flagged as
default whatever its position, else the first entry in server-supplied
order, and the BeginAuth request it posts names the selected entry's
method id. -/
theorem mfa_begin_selects_default (net : Net) (m : UserProof) (ms : List UserProof)
    (cfg : ConvergedResponse) :
    (∀ p : UserProof, (m :: ms).filter (fun v => v.isDefault) = [p] →
      selectUserProof (m :: ms) = some p ∧
      (mkBeginAuthRequest p cfg).authMethodID = p.authMethodID ∧
      (processMFABeginAuth net (m :: ms) cfg).2 =
        [.mfaBeginPost cfg.urlBeginAuth (mkBeginAuthRequest p cfg)]) ∧
    ((∀ v ∈ m :: ms, v.isDefault = false) →
      selectUserProof (m :: ms) = some m ∧
      (mkBeginAuthRequest m cfg).authMethodID = m.authMethodID ∧
      (processMFABeginAuth net (m :: ms) cfg).2 =
        [.mfaBeginPost cfg.urlBeginAuth (mkBeginAuthRequest m cfg)]) := by
  have htrace : ∀ q : UserProof, selectUserProof (m :: ms) = some q →
      (processMFABeginAuth net (m :: ms) cfg).2 =
        [.mfaBeginPost cfg.urlBeginAuth (mkBeginAuthRequest q cfg)] := by
    intro q hsel
    simp only [processMFABeginAuth, hsel]
    cases hb : net.beginAuth cfg.urlBeginAuth (mkBeginAuthRequest q cfg) with
    | none => simp
    | some resp => by_cases hr : resp.success <;> simp [hr]
  constructor
  · intro p hfilter
    have hfind := find?_eq_of_filter_eq_singleton (fun v => v.isDefault) (m :: ms) p hfilter
    have hsel : selectUserProof (m :: ms) = some p := by
      simp [selectUserProof, hfind]
    exact ⟨hsel, rfl, htrace p hsel⟩
  · intro hnone
    have hfind : (m :: ms).find? (fun v => v.isDefault) = none :=
      List.find?_eq_none.mpr fun x hx => by simp [hnone x hx]
    have hsel : selectUserProof (m :: ms) = some m := by
      simp [selectUserProof, hfind]
    exact ⟨hsel, rfl, htrace m hsel⟩

/-- An SMS User Proof, not the default. -/
def proofSMS : UserProof where
  authMethodID := "OneWaySMS"
  data := "+1 555"
  display := "text message"
  isDefault := false

/-- The push-notification User Proof, flagged as default. -/
def proofPush : UserProof where
  authMethodID := "PhoneAppNotification"
  data := ""
  display := "approve request"
  isDefault := true

/-- An OTP User Proof, not the default. -/
def proofOTP : UserProof where
  authMethodID := "PhoneAppOTP"
  data := ""
  display := "verification code"
  isDefault := false

/-- Witness for C5: among three User Proofs the mid-list default is
selected and named in the BeginAuth request; with no default, the first
is selected. -/
theorem mfa_begin_selects_default_witness :
    selectUserProof [proofSMS, proofPush, proofOTP] = some proofPush ∧
    (processMFABeginAuth sampleNet [proofSMS, proofPush, proofOTP] emptyConfig).2 =
      [.mfaBeginPost emptyConfig.urlBeginAuth (mkBeginAuthRequest proofPush emptyConfig)] ∧
    selectUserProof [proofSMS, proofOTP] = some proofSMS := by
  have h1 := (mfa_begin_selects_default sampleNet proofSMS [proofPush, proofOTP]
    emptyConfig).1 proofPush (by decide)
  have h2 := (mfa_begin_selects_default sampleNet proofSMS [proofOTP] emptyConfig).2
    (by decide)
  exact ⟨h1.1, h1.2.2, h2.1⟩

/-- Helper: the Federated-Auth handler issues only federation requests —
never a password-form post. -/
theorem federated_trace_no_password_post (net : Net) (creds : LoginCredentials)
    (u : String) :
    ∀ e ∈ (processFederatedAuth net creds u).2, ∀ url fields,
      e ≠ TraceEvent.passwordFormPost url fields := by
  unfold processFederatedAuth
  split
  · simp
  · split
    · simp
    · split
      · simp
      · dsimp only
        split <;> simp

/-- C8: when the credential-type query answers with a non-empty
federation redirect URL, `processConvergedSignIn` delegates to the
Federated-Auth handler on that URL — its result and every subsequent
request are the Federated-Auth handler's own, prefixed only by the
credential-type query — and no request of the whole exchange is a direct
password-form post. -/
theorem converged_signin_federated_delegation (net : Net) (creds : LoginCredentials)
    (b : Body) (cfg : ConvergedResponse) (ct : GetCredentialTypeResponse)
    (hcfg : b.config = some cfg)
    (hct : net.credType cfg.urlGetCredentialType (mkGetCredentialTypeRequest creds cfg) =
      some ct)
    (hfed : ct.credentials.federationRedirectURL ≠ "") :
    processConvergedSignIn net creds b =
      ((processFederatedAuth net creds ct.credentials.federationRedirectURL).1,
        .credentialTypeQuery cfg.urlGetCredentialType (mkGetCredentialTypeRequest creds cfg) ::
          (processFederatedAuth net creds ct.credentials.federationRedirectURL).2) ∧
    ∀ e ∈ (processConvergedSignIn net creds b).2, ∀ url fields,
      e ≠ TraceEvent.passwordFormPost url fields := by
  have hdeleg : processConvergedSignIn net creds b =
      ((processFederatedAuth net creds ct.credentials.federationRedirectURL).1,
        .credentialTypeQuery cfg.urlGetCredentialType (mkGetCredentialTypeRequest creds cfg) ::
          (processFederatedAuth net creds ct.credentials.federationRedirectURL).2) := by
    simp only [processConvergedSignIn, hcfg, hct]
    simp [hfed]
  refine ⟨hdeleg, ?_⟩
  rw [hdeleg]
  intro e he url fields
  simp only [List.mem_cons] at he
  rcases he with he | he
  · subst he; simp
  · exact federated_trace_no_password_post net creds _ e he url fields

/-- The session context of a concrete ConvergedSignIn page. -/
def signInCfg : ConvergedResponse :=
  { emptyConfig with
      urlGetCredentialType := "https://login.example/common/GetCredentialType"
      urlPost := "/ppsecure/post.srf"
      sFT := "ft0"
      sCtx := "ctx0" }

/-- The credential-type answer of a federated account. -/
def fedCT : GetCredentialTypeResponse where
  username := "user@example.com"
  display := "user@example.com"
  ifExistsResult := 0
  isUnmanaged := false
  throttleStatus := 0
  credentials :=
    { prefCredential := 4, hasPassword := true,
      federationRedirectURL := "https://adfs.example/ls" }
  flowToken := "ft1"
  isSignupDisallowed := true
  apiCanary := "c"

/-- An environment whose credential-type query reports the federated
account. -/
def fedNet : Net :=
  { sampleNet with credType := fun _ _ => some fedCT }

/-- A concrete ConvergedSignIn page. -/
def bodySignIn : Body where
  url := "https://login.example/signin"
  text := "pgid ConvergedSignIn"
  doc := []
  config := some signInCfg

/-- Witness for C8 at a concrete federated sign-in page. -/
theorem converged_signin_federated_delegation_witness :
    processConvergedSignIn fedNet sampleCreds bodySignIn =
      ((processFederatedAuth fedNet sampleCreds
          fedCT.credentials.federationRedirectURL).1,
        .credentialTypeQuery signInCfg.urlGetCredentialType
            (mkGetCredentialTypeRequest sampleCreds signInCfg) ::
          (processFederatedAuth fedNet sampleCreds
            fedCT.credentials.federationRedirectURL).2) ∧
    ∀ e ∈ (processConvergedSignIn fedNet sampleCreds bodySignIn).2, ∀ url fields,
      e ≠ TraceEvent.passwordFormPost url fields :=
  converged_signin_federated_delegation fedNet sampleCreds bodySignIn signInCfg fedCT
    rfl rfl (by decide)

/-- An inner flow that would rewrite the session state and issue a
request; the guards must never reach it. -/
def sampleInner (c : LoginCredentials) (st : SessionState) :
    AuthOutcome × SessionState × List TraceEvent :=
  (.flowResult (authenticate sampleNet c 1 "https://account.example" "app-id"),
    { st with cookies := [("ESTSAUTH", "t")] }, [.startGet "https://account.example/x"])

/-- A session state with a cookie and redirect-following enabled. -/
def sampleSession : SessionState where
  cookies := [("buid", "b")]
  followRedirects := true

/-- Witness for C10: empty-username credentials produce the guard error
with the session state unchanged and no requests, although the inner flow
would have changed both. -/
theorem authenticate_input_guards_witness :
    Authenticate sampleInner sampleSession
        (some { username := "", password := "hunter2", mfaToken := "" }) =
      (.guardError "username is required", sampleSession, []) :=
  (authenticate_input_guards sampleInner sampleSession
      (some { username := "", password := "hunter2", mfaToken := "" })).2.1
    { username := "", password := "hunter2", mfaToken := "" } rfl rfl

/-- Helper: `url.Values.Set` with a key not bound in the list appends the
binding. -/
theorem setVal_of_fresh (vs : Values) (k v : String) (h : ∀ p ∈ vs, p.1 ≠ k) :
    setVal vs k v = vs ++ [(k, v)] := by
  have h' : vs.any (fun p => p.1 == k) = false := by
    rw [List.any_eq_false]
    intro p hp
    simpa using h p hp
  simp [setVal, h']

/-- Helper: when the field names of a list of inputs are pairwise
distinct and fresh for the accumulator, `parseFormData`'s fold appends
exactly the inputs' field pairs. -/
theorem formFold_append :
    ∀ (inputs : List InputEl) (acc : Values),
      (∀ q ∈ acc, ∀ p ∈ inputFields inputs, q.1 ≠ p.1) →
      ((inputFields inputs).map Prod.fst).Nodup →
      inputs.foldl formFieldStep acc = acc ++ inputFields inputs := by
  intro inputs
  induction inputs with
  | nil => intro acc _ _; simp [inputFields]
  | cons i rest ih =>
    intro acc hfresh hnodup
    cases hn : i.nameAttr with
    | none =>
      have hfields : inputFields (i :: rest) = inputFields rest := by
        simp [inputFields, List.filterMap_cons, hn]
      rw [hfields] at hfresh hnodup ⊢
      have hstep : formFieldStep acc i = acc := by simp [formFieldStep, hn]
      rw [List.foldl_cons, hstep]
      exact ih acc hfresh hnodup
    | some n =>
      by_cases hne : n = ""
      · have hfields : inputFields (i :: rest) = inputFields rest := by
          simp [inputFields, List.filterMap_cons, hn, hne]
        rw [hfields] at hfresh hnodup ⊢
        have hstep : formFieldStep acc i = acc := by simp [formFieldStep, hn, hne]
        rw [List.foldl_cons, hstep]
        exact ih acc hfresh hnodup
      · have hfields : inputFields (i :: rest) = (n, i.valueAttr.getD "") :: inputFields rest := by
          simp [inputFields, List.filterMap_cons, hn, hne]
        have hstep : formFieldStep acc i = setVal acc n (i.valueAttr.getD "") := by
          simp [formFieldStep, hn, hne]
        have hfreshn : ∀ q ∈ acc, q.1 ≠ n := by
          intro q hq
          exact hfresh q hq (n, i.valueAttr.getD "")
            (by rw [hfields]; exact List.mem_cons_self _ _)
        have hset : setVal acc n (i.valueAttr.getD "") = acc ++ [(n, i.valueAttr.getD "")] :=
          setVal_of_fresh acc n _ hfreshn
        have hnodup' : ((inputFields rest).map Prod.fst).Nodup := by
          rw [hfields] at hnodup
          exact (List.nodup_cons.mp (by simpa using hnodup)).2
        have hnotin : n ∉ (inputFields rest).map Prod.fst := by
          rw [hfields] at hnodup
          exact (List.nodup_cons.mp (by simpa using hnodup)).1
        have hfresh' : ∀ q ∈ acc ++ [(n, i.valueAttr.getD "")], ∀ p ∈ inputFields rest,
            q.1 ≠ p.1 := by
          intro q hq p hp
          rcases List.mem_append.mp hq with hq | hq
          · exact hfresh q hq p (by rw [hfields]; exact List.mem_cons_of_mem _ hp)
          · have hq' : q = (n, i.valueAttr.getD "") := by simpa using hq
            subst hq'
            intro he
            apply hnotin
            have hne' : n = p.1 := by simpa using he
            exact hne' ▸ List.mem_map_of_mem Prod.fst hp
        rw [List.foldl_cons, hstep, hset,
          ih (acc ++ [(n, i.valueAttr.getD "")]) hfresh' hnodup', hfields]
        simp

/-- A source form carrying two inputs with the same name and different
values. -/
def formDupName : FormEl where
  action := some "https://sp.example/acs"
  inputs := [{ typeAttr := some "hidden", nameAttr := some "a", valueAttr := some "1" },
             { typeAttr := some "hidden", nameAttr := some "a", valueAttr := some "2" }]

/-- A page whose only content is the duplicate-name form. -/
def bodyDupName : Body where
  url := "https://sp.example/relay"
  text := "document.forms 0 .submit"
  doc := [.form formDupName]
  config := none

/-- C9 (counterexample): on a form with two same-named inputs the parse
keeps only the last value — the pair `(a, 1)` is a field of the source
form, yet the extracted values and the relayed request body hold only
`(a, 2)` — so the outgoing set of pairs differs from the set of the
form's fields. -/
theorem parse_relay_duplicate_name_counterexample :
    parseFormData bodyDupName.doc = .ok ([("a", "2")], "https://sp.example/acs") ∧
    ("a", "1") ∈ formFields formDupName ∧
    ("a", "1") ∉ [(("a" : String), ("2" : String))] ∧
    (reProcessForm sampleNet bodyDupName).2 =
      [.formRelayPost "https://sp.example/acs" [("a", "2")]] :=
  ⟨rfl, by decide, by decide, rfl⟩

/-- C9 (amended): for a source form whose named inputs have pairwise
distinct names, extracting with `parseFormData` yields exactly the form's
field pairs — including those with empty values — and the relay handler
re-posts exactly those pairs unchanged to the form's action URL. -/
theorem relay_preserves_distinct_fields (net : Net) (b : Body) (f : FormEl)
    (hform : firstForm b.doc = some f)
    (hnodup : ((formFields f).map Prod.fst).Nodup)
    (hact : f.action.getD "" ≠ "") :
    parseFormData b.doc = .ok (formFields f, f.action.getD "") ∧
    (reProcessForm net b).2 = [.formRelayPost (f.action.getD "") (formFields f)] := by
  have hfold : f.inputs.foldl formFieldStep [] = formFields f := by
    have h := formFold_append f.inputs [] (by simp) hnodup
    simpa [formFields] using h
  have hparse : parseFormData b.doc = .ok (formFields f, f.action.getD "") := by
    simp only [parseFormData, hform, hfold]
  refine ⟨hparse, ?_⟩
  simp only [reProcessForm, hparse]
  rw [if_neg hact]
  cases net.post (f.action.getD "") (formFields f) <;> simp

/-- A relay form with distinct field names, one empty value, and one
absent value attribute. -/
def formRelay : FormEl where
  action := some "https://sp.example/continue"
  inputs := [{ typeAttr := some "hidden", nameAttr := some "SAMLRequest",
               valueAttr := some "PD94bWw=" },
             { typeAttr := some "hidden", nameAttr := some "RelayState",
               valueAttr := some "" },
             { typeAttr := some "hidden", nameAttr := some "opt", valueAttr := none }]

/-- The relay page holding `formRelay`. -/
def bodyRelay : Body where
  url := "https://sp.example/relay2"
  text := "auto submit"
  doc := [.form formRelay]
  config := none

/-- Witness for the amended C9 at a concrete relay form with an
empty-valued field. -/
theorem relay_preserves_distinct_fields_witness :
    parseFormData bodyRelay.doc = .ok (formFields formRelay, "https://sp.example/continue") ∧
    (reProcessForm sampleNet bodyRelay).2 =
      [.formRelayPost "https://sp.example/continue" (formFields formRelay)] :=
  relay_preserves_distinct_fields sampleNet bodyRelay formRelay rfl (by decide) (by decide)

end Azure2AWS
